import Mathlib

/-!
Shallow embedding of the FreeBSD process-attach synchronization code
(renderdoc/os/posix/freebsd/freebsd_process.cpp).

The embedding models the pure control flow and arithmetic of the source.
External effects (waitpid, ptrace register reads, file reads, the external
lsof command, sleeps) are modelled as oracles: functions from a poll tick
to the observation the corresponding call would return at that tick.
Wall-clock timeouts are modelled as a fuel bound on the number of poll
iterations, since the source bounds its loops by elapsed monotonic time
across ticks of fixed-sleep polling.
-/

/-! ## Wait-status encoding (FreeBSD sys/wait.h) -/

/-- Low seven bits of a raw wait status, the macro WSTATUS(x) = x & 0177. -/
def WSTATUS (s : Nat) : Nat := s % 128

/-- Macro WIFSTOPPED(x): the status denotes a stopped process. -/
def WIFSTOPPED (s : Nat) : Bool := WSTATUS s == 127

/-- Macro WIFEXITED(x): the status denotes a normally exited process. -/
def WIFEXITED (s : Nat) : Bool := WSTATUS s == 0

/-- Macro WSTOPSIG(x) = x >> 8: the signal that stopped the process. -/
def WSTOPSIG (s : Nat) : Nat := s / 256

/-- Signal number of SIGSTOP on FreeBSD. -/
def SIGSTOP : Nat := 17

/-! ## Traced-wait primitive (wait_traced_child) -/

/-- Observations a poll loop can make about the tracee, per poll tick:
the first non-blocking waitpid result at that tick (some status when the
call reports this child), the instruction-pointer probe at that tick
(0 when the child is not stopped, so the register read fails), and the
reconciling second waitpid result at that tick. -/
structure WaitOracle where
  w1 : Nat → Option Nat
  ip : Nat → Nat
  w2 : Nat → Option Nat

/-- Model of wait_traced_child. At each tick the loop condition calls
waitpid; a report ends the loop and the primitive returns
WIFSTOPPED(status). Otherwise status is reset to 0 and the instruction
pointer is probed; if readable, one more waitpid reconciles the status
(status stays 0 when it still does not report) and the primitive returns
true. Fuel counts the further poll iterations the timeout window allows;
exhausted fuel is the break on the elapsed-time check, after which the
zero status yields false. -/
def wait_traced_child (o : WaitOracle) : Nat → Nat → Bool × Nat
  | fuel, t =>
    match o.w1 t with
    | some st => (WIFSTOPPED st, st)
    | none =>
      if o.ip t ≠ 0 then
        match o.w2 t with
        | some st2 => (true, st2)
        | none => (true, 0)
      else
        match fuel with
        | 0 => (false, 0)
        | f + 1 => wait_traced_child o f (t + 1)

/-! ## Tracer-scope gate (ptrace_scope_ok) -/

/-- Result of one call to the gate: the returned boolean, whether this
call emitted the warning, and the warning latch after the call. -/
structure ScopeResult where
  ok : Bool
  warnEmitted : Bool
  warned : Bool
deriving DecidableEq

/-- Model of ptrace_scope_ok. The setting is FreeBSD_PtraceChildProcesses;
contents is the trimmed text of /proc/sys/kernel/yama/ptrace_scope parsed
by atoi, none when the file is absent or empty; warned is the static
process-lifetime latch guarding the warning. -/
def ptrace_scope_ok (setting isReplay : Bool) (contents : Option Int)
    (warned : Bool) : ScopeResult :=
  if !setting then ⟨false, false, warned⟩
  else
    match contents with
    | none => ⟨true, false, warned⟩
    | some v =>
      if v > 1 then
        if isReplay && !warned then ⟨false, true, true⟩
        else ⟨false, false, warned⟩
      else ⟨true, false, warned⟩

/-! ## ELF entry-point resolution -/

/-- Fields of the ELF file header used by the resolver. -/
structure Elf64_Ehdr where
  e_entry : Nat
  e_shoff : Nat
  e_shnum : Nat
deriving DecidableEq

/-- Fields of an ELF section header used by the resolver. -/
structure Elf64_Shdr where
  sh_addr : Nat
  sh_size : Nat
  sh_offset : Nat
deriving DecidableEq

/-- Condition sh_addr <= entry && entry < sh_addr + sh_size from the
section scan. -/
def sectionCovers (sec : Elf64_Shdr) (e : Nat) : Bool :=
  decide (sec.sh_addr ≤ e) && decide (e < sec.sh_addr + sec.sh_size)

/-- Model of the section-scan loop. readSec s is the result of the s-th
successive section-header read (none = fread failure, which makes the
whole attach fail). The scan runs for e_shnum iterations; the first
section covering the entry sets the file offset and breaks; if no
section covers it the initial value entryFileOffset = entryVirtual is
kept. -/
def scanSections (readSec : Nat → Option Elf64_Shdr) (e : Nat) :
    Nat → Nat → Option Nat
  | 0, _ => some e
  | n + 1, s =>
    match readSec s with
    | none => none
    | some sec =>
      if sectionCovers sec e then some (e - sec.sh_addr + sec.sh_offset)
      else scanSections readSec e n (s + 1)

/-- Model of the entry virtual-address to file-offset translation: with a
section-header table (e_shoff nonzero) run the section scan, otherwise
keep entryFileOffset = entryVirtual. -/
def resolveEntryFileOffset (hdr : Elf64_Ehdr)
    (readSec : Nat → Option Elf64_Shdr) : Option Nat :=
  if hdr.e_shoff ≠ 0 then scanSections readSec hdr.e_entry hdr.e_shnum 0
  else some hdr.e_entry

/-- On FreeBSD the map-derived section offset correction is the constant
zero (the source sets sectionOffset = 0 when parsing the map line). -/
def sectionOffset : Nat := 0

/-- Absolute runtime entry address: baseVirtualPointer + entryFileOffset
- sectionOffset. -/
def resolveEntryAddress (base : Nat) (hdr : Elf64_Ehdr)
    (readSec : Nat → Option Elf64_Shdr) : Option Nat :=
  (resolveEntryFileOffset hdr readSec).map (fun off => base + off - sectionOffset)

/-- Predicate for stating section-scan facts: the j-th section read
succeeds and the section read does not cover the entry address. -/
def secReadMisses (readSec : Nat → Option Elf64_Shdr) (e j : Nat) : Bool :=
  match readSec j with
  | none => false
  | some sec => !sectionCovers sec e

/-! ## Breakpoint injection and removal (x86 constants) -/

/-- Trap opcode pattern, int3 on x86. -/
def BREAK_INST : Nat := 0xcc

/-- Width in bytes of the trap opcode on x86. -/
def BREAK_INST_BYTES_SIZE : Nat := 1

/-- Mask 0xffffffffffffffffULL << (BREAK_INST_BYTES_SIZE * 8) computed in
64-bit unsigned arithmetic. -/
def wordMask : Nat := (0xffffffffffffffff <<< (BREAK_INST_BYTES_SIZE * 8)) % 2 ^ 64

/-- Patched word: the original word with its low-order trap-width bytes
replaced by the trap opcode, (orig & mask) | BREAK_INST. -/
def breakpointWord (orig : Nat) : Nat := (orig &&& wordMask) ||| BREAK_INST

/-- Tracee memory is a map from word-aligned addresses to 64-bit words.
Injection reads the original word at the entry address, writes back the
patched word, and returns the original word for later restoration. -/
def injectBreakpoint (mem : Nat → Nat) (addr : Nat) : (Nat → Nat) × Nat :=
  (Function.update mem addr (breakpointWord (mem addr)), mem addr)

/-- Restoration writes the saved original word back at the entry address. -/
def restoreBreakpoint (mem : Nat → Nat) (addr : Nat) (orig : Nat) : Nat → Nat :=
  Function.update mem addr orig

/-! ## Attach orchestrator (StopChildAtMain) -/

/-- Environment of one StopChildAtMain invocation: gate inputs, one wait
oracle and fuel per wait stage, the base address of the first executable
mapping parsed from /proc/pid/map (none = file unopenable or first r-x
line unparseable), the ELF header read (none = unopenable or short read),
the section-header read oracle, and the tracee memory. -/
structure StopEnv where
  setting : Bool
  isReplay : Bool
  scopeContents : Option Int
  warned : Bool
  wait1 : WaitOracle
  fuel1 : Nat
  wait2 : WaitOracle
  fuel2 : Nat
  wait3 : WaitOracle
  fuel3 : Nat
  mapsBase : Option Nat
  ehdr : Option Elf64_Ehdr
  readSec : Nat → Option Elf64_Shdr
  mem : Nat → Nat

/-- Model of StopChildAtMain, returning the boolean result and the final
tracee memory. The ptrace calls asserted RDCASSERTEQUAL in the source log
on failure but do not abort, so they are modelled as always succeeding.
Stage order follows the source: gate, initial-stop wait with SIGSTOP
check, exec-stop wait with its status check, map parse, ELF header read,
entry resolution, breakpoint injection, continue, breakpoint wait,
instruction-pointer rollback and restoration of the original word. -/
def StopChildAtMain (env : StopEnv) : Bool × (Nat → Nat) :=
  if !(ptrace_scope_ok env.setting env.isReplay env.scopeContents env.warned).ok then
    (false, env.mem)
  else if !(wait_traced_child env.wait1 env.fuel1 0).1 then (false, env.mem)
  else if (wait_traced_child env.wait1 env.fuel1 0).2 > 0 ∧
      WSTOPSIG (wait_traced_child env.wait1 env.fuel1 0).2 ≠ SIGSTOP then
    (false, env.mem)
  else if !(wait_traced_child env.wait2 env.fuel2 0).1 then (false, env.mem)
  else if (wait_traced_child env.wait2 env.fuel2 0).2 > 0 ∧
      !(WIFSTOPPED (wait_traced_child env.wait2 env.fuel2 0).2 ||
        WIFEXITED (wait_traced_child env.wait2 env.fuel2 0).2) then
    (false, env.mem)
  else
    match env.mapsBase with
    | none => (false, env.mem)
    | some base =>
      if base = 0 then (false, env.mem)
      else
        match env.ehdr with
        | none => (false, env.mem)
        | some hdr =>
          match resolveEntryAddress base hdr env.readSec with
          | none => (false, env.mem)
          | some entry =>
            if !(wait_traced_child env.wait3 env.fuel3 0).1 then
              (false, (injectBreakpoint env.mem entry).1)
            else
              (true, restoreBreakpoint (injectBreakpoint env.mem entry).1 entry
                (injectBreakpoint env.mem entry).2)

/-! ## Resume with delay (ResumeProcess) -/

/-- Outcome of ResumeProcess: how many SIGCONT signals were sent (the
tracee is left stopped exactly when none is sent on the delayed path) and
whether PT_DETACH was issued. -/
structure ResumeResult where
  sigcont : Nat
  detached : Bool
deriving DecidableEq

/-- Model of the tracer-watch do-while loop: at each tick the status
pseudo-file is read; tracer t is the TracerPid value it shows (none when
the file has no TracerPid line, which breaks the loop unconnected). A
nonzero value means a debugger attached. Fuel counts the further
iterations the delay window allows. -/
def watchTracer (tracer : Nat → Option Nat) : Nat → Nat → Bool
  | fuel, t =>
    match tracer t with
    | none => false
    | some v =>
      if v ≠ 0 then true
      else
        match fuel with
        | 0 => false
        | f + 1 => watchTracer tracer f (t + 1)

/-- Model of ResumeProcess. With a positive delay and a readable
instruction pointer (tracee stopped) it detaches, watches for a tracer,
and sends SIGCONT exactly once only if the watch times out; otherwise it
just detaches (no signal). -/
def ResumeProcess (childPid : Int) (delaySeconds : Nat) (ip : Nat)
    (tracer : Nat → Option Nat) (fuel : Nat) : ResumeResult :=
  if childPid ≠ 0 then
    if delaySeconds > 0 then
      if ip ≠ 0 then
        if watchTracer tracer fuel 0 then ⟨0, true⟩ else ⟨1, true⟩
      else ⟨0, true⟩
    else ⟨0, true⟩
  else ⟨0, false⟩

/-! ## Ident-port discovery (GetIdentPort) -/

/-- Character read with the out-of-range default: rdcstr is nul
terminated, so reads at or past the length observe a nul byte. -/
def getC (s : List Char) (i : Nat) : Char := s.getD i (Char.ofNat 0)

/-- Helper isNewline from the source. -/
def isNewlineC (c : Char) : Bool := c == '\n' || c == '\r'

/-- Digit test from the scan loops: the loop breaks when
c < '0' || c > '9'. -/
def isDigitC (c : Char) : Bool := !(decide (c < '0') || decide ('9' < c))

/-- White-space test of C isspace, used by atoi. -/
def isSpaceC (c : Char) : Bool :=
  c == ' ' || c == '\t' || c == '\n' || c == Char.ofNat 11 || c == Char.ofNat 12 ||
    c == '\r'

/-- Number of leading digit characters of a suffix. -/
def countDigits : List Char → Nat
  | [] => 0
  | c :: rest => if isDigitC c then countDigits rest + 1 else 0

/-- Number of leading white-space characters of a suffix. -/
def countSpaces : List Char → Nat
  | [] => 0
  | c :: rest => if isSpaceC c then countSpaces rest + 1 else 0

/-- Index just past the digit run starting at i, the final value of the
source loops for(; i < len; i++) breaking on the first non-digit. -/
def scanDigitsEnd (s : List Char) (i : Nat) : Nat := i + countDigits (s.drop i)

/-- Decimal accumulation of the leading digit run, as atoi does after the
sign. -/
def digitsVal : List Char → Int → Int
  | [], acc => acc
  | c :: rest, acc =>
    if isDigitC c then digitsVal rest (acc * 10 + (c.toNat - 48 : Nat)) else acc

/-- Sign handling of atoi after white space. -/
def atoiSigned : List Char → Int
  | '-' :: rest => -(digitsVal rest 0)
  | '+' :: rest => digitsVal rest 0
  | l => digitsVal l 0

/-- Model of atoi(&result[i]) on the unmodified lsof output: skip white
space, then an optional sign, then accumulate digits. -/
def atoiFrom (s : List Char) (i : Nat) : Int :=
  atoiSigned ((s.drop i).drop (countSpaces (s.drop i)))

/-- Offset of the first occurrence of the marker n*: in a suffix. -/
def findMarkerOff : List Char → Option Nat
  | 'n' :: '*' :: ':' :: _ => some 0
  | _ :: rest => (findMarkerOff rest).map (· + 1)
  | [] => none

/-- Model of parseResult.find("n*:", i): absolute index of the first
occurrence at or after i. The nul bytes the source pokes into its
parseResult copy all sit strictly before the resume index i of every
subsequent find and digit scan, so searching the unmodified text is
equivalent. -/
def findMarker (s : List Char) (i : Nat) : Option Nat :=
  (findMarkerOff (s.drop i)).map (i + ·)

/-- Index at which scanning resumes after consuming a numeric token that
starts at tokenStart: past the digits, past the poked nul, and past one
further newline character when present. -/
def tokenEnd (s : List Char) (tokenStart : Nat) : Nat :=
  if isNewlineC (getC s (scanDigitsEnd s tokenStart + 1)) then
    scanDigitsEnd s tokenStart + 2
  else scanDigitsEnd s tokenStart + 1

/-- Model of the port-token scan loop: while i < len, find the next n*:
marker (missing marker is the malformed-line hard failure returning 0),
parse the port after it, return it when it lies in the configured range,
otherwise continue past the token. Fuel bounds the iterations; the
caller passes length + 1 which exceeds the iteration count since every
iteration advances the index by at least four. -/
def scanPortTokens (s : List Char) (portFirst portLast : Int) :
    Nat → Nat → Int
  | 0, _ => 0
  | fuel + 1, i =>
    if i < s.length then
      match findMarker s i with
      | some netStart =>
        if portFirst ≤ atoiFrom s (netStart + 3) ∧
            atoiFrom s (netStart + 3) ≤ portLast then
          atoiFrom s (netStart + 3)
        else scanPortTokens s portFirst portLast fuel (tokenEnd s (netStart + 3))
      | none => 0
    else 0

/-- Model of the parsing part of GetIdentPort on one lsof output: the
leading token must be p followed by the tracee PID (mismatch is a hard
failure returning 0), then the port-token scan runs from past the PID
token; falling off any path returns 0. -/
def parseIdentPort (s : List Char) (childPid : Int)
    (portFirst portLast : Int) : Int :=
  if getC s 0 = 'p' then
    if atoiFrom s 1 = childPid then
      scanPortTokens s portFirst portLast (s.length + 1) (tokenEnd s 1)
    else 0
  else 0

/-- Outcome of the lsof retry loop: the final captured output, the
sequence of inter-attempt sleep durations in milliseconds, and how many
attempts ran. -/
structure RetryResult where
  result : List Char
  delays : List Nat
  attempts : Nat
deriving DecidableEq

/-- Model of the retry loop: up to the fuel bound of attempts, run the
command (outputs i is the stdout of attempt i); stop at the first
non-empty output; after each empty output sleep wait milliseconds and
double wait. -/
def identRetry (outputs : Nat → List Char) : Nat → Nat → Nat → RetryResult
  | 0, _, _ => ⟨[], [], 0⟩
  | n + 1, i, wait =>
    if (outputs i).isEmpty then
      ⟨(identRetry outputs n (i + 1) (wait * 2)).result,
       wait :: (identRetry outputs n (i + 1) (wait * 2)).delays,
       (identRetry outputs n (i + 1) (wait * 2)).attempts + 1⟩
    else ⟨outputs i, [], 1⟩

/-- Model of GetIdentPort: run the retry loop with 10 attempts starting
at a 1 ms wait; empty final output returns 0, otherwise the output is
parsed. portFirst and portLast stand for the configured range
RenderDoc_FirstTargetControlPort .. RenderDoc_LastTargetControlPort. -/
def GetIdentPort (childPid : Int) (portFirst portLast : Int)
    (outputs : Nat → List Char) : Int :=
  if (identRetry outputs 10 0 1).result.isEmpty then 0
  else parseIdentPort (identRetry outputs 10 0 1).result childPid portFirst portLast

/-! ## Concrete environments used by individual claim checks -/

/-- Wait oracle of a tracee whose first waitpid immediately reports a
stop by SIGSTOP: raw status 0x117f has WSTATUS 127 and stop signal 17. -/
def oStopped : WaitOracle := ⟨fun _ => some 4479, fun _ => 0, fun _ => none⟩

/-- Attach environment whose binary declares a section-header table with
a single section that does not cover the declared entry address, while
every tracing stage cooperates. -/
def envC1 : StopEnv :=
  ⟨true, false, none, false, oStopped, 1, oStopped, 1, oStopped, 1,
   some 0x400000, some ⟨0x5000, 64, 1⟩, fun _ => some ⟨0x1000, 0x100, 0x2000⟩,
   fun _ => 0⟩

/-- Attach environment whose exec-stop wait observes the child exiting
(raw status 256: WSTATUS 0, exit code 1) instead of stopping. -/
def envC2 : StopEnv :=
  ⟨true, false, none, false, oStopped, 1,
   ⟨fun _ => some 256, fun _ => 0, fun _ => none⟩, 1, oStopped, 1,
   some 0x400000, some ⟨0x5000, 0, 1⟩, fun _ => none, fun _ => 0⟩

/-! ## Theorems -/

/-- C7: with no section-header table declared (e_shoff zero), entry
resolution computes exactly mapping base + entry virtual address. -/
theorem c7_flat_mapping_address (base entry shnum : Nat)
    (readSec : Nat → Option Elf64_Shdr) :
    resolveEntryAddress base ⟨entry, 0, shnum⟩ readSec = some (base + entry) := by
  simp [resolveEntryAddress, resolveEntryFileOffset, sectionOffset]

/-- Helper: the patched word keeps the trap opcode in its low-order
trap-width bytes. -/
theorem breakpointWord_mod (w : Nat) :
    breakpointWord w % 2 ^ (8 * BREAK_INST_BYTES_SIZE) = BREAK_INST := by
  show breakpointWord w % 2 ^ 8 = BREAK_INST
  rw [← Nat.and_pow_two_sub_one_eq_mod]
  unfold breakpointWord
  rw [Nat.and_distrib_right, Nat.and_assoc]
  have h0 : wordMask &&& (2 ^ 8 - 1) = 0 := by decide
  have h1 : BREAK_INST &&& (2 ^ 8 - 1) = BREAK_INST := by decide
  rw [h0, h1, Nat.and_zero, Nat.zero_or]

/-- Helper: the patched word preserves every high-order byte of a 64-bit
original word. -/
theorem breakpointWord_div (w : Nat) (hw : w < 2 ^ 64) :
    breakpointWord w / 2 ^ (8 * BREAK_INST_BYTES_SIZE) =
      w / 2 ^ (8 * BREAK_INST_BYTES_SIZE) := by
  show breakpointWord w / 2 ^ 8 = w / 2 ^ 8
  rw [← Nat.shiftRight_eq_div_pow, ← Nat.shiftRight_eq_div_pow]
  apply Nat.eq_of_testBit_eq
  intro j
  have hmask : wordMask = (2 ^ 56 - 1) <<< 8 := by decide
  have hb : BREAK_INST.testBit (8 + j) = false := by
    apply Nat.testBit_lt_two_pow
    calc BREAK_INST < 2 ^ 8 := by decide
      _ ≤ 2 ^ (8 + j) := Nat.pow_le_pow_right (by omega) (by omega)
  simp only [Nat.testBit_shiftRight, breakpointWord, Nat.testBit_or, Nat.testBit_and,
    hmask, Nat.testBit_shiftLeft, Nat.testBit_two_pow_sub_one, hb, Bool.or_false]
  by_cases hj : j < 56
  · have h8 : 8 ≤ 8 + j := by omega
    have hsub : 8 + j - 8 = j := by omega
    simp [h8, hsub, hj]
  · have hw2 : w.testBit (8 + j) = false := by
      apply Nat.testBit_lt_two_pow
      calc w < 2 ^ 64 := hw
        _ ≤ 2 ^ (8 + j) := Nat.pow_le_pow_right (by omega) (by omega)
    have hsub : 8 + j - 8 = j := by omega
    simp [hw2, hsub, hj]

/-- C3: injecting the breakpoint at the entry address (which replaces the
low-order BREAK_INST_BYTES_SIZE bytes of the original word with the trap
opcode and preserves the high-order bytes) and then restoring with the
saved original word leaves memory, in particular the word at the target
address, byte-for-byte equal to its pre-injection value. -/
theorem c3_breakpoint_roundtrip :
    (∀ (mem : Nat → Nat) (addr : Nat),
      restoreBreakpoint (injectBreakpoint mem addr).1 addr
          (injectBreakpoint mem addr).2 = mem ∧
      restoreBreakpoint (injectBreakpoint mem addr).1 addr
          (injectBreakpoint mem addr).2 addr = mem addr ∧
      (injectBreakpoint mem addr).1 addr = breakpointWord (mem addr)) ∧
    (∀ w : Nat, w < 2 ^ 64 →
      breakpointWord w % 2 ^ (8 * BREAK_INST_BYTES_SIZE) = BREAK_INST ∧
      breakpointWord w / 2 ^ (8 * BREAK_INST_BYTES_SIZE) =
        w / 2 ^ (8 * BREAK_INST_BYTES_SIZE)) := by
  constructor
  · intro mem addr
    have h : restoreBreakpoint (injectBreakpoint mem addr).1 addr
        (injectBreakpoint mem addr).2 = mem := by
      simp [injectBreakpoint, restoreBreakpoint, Function.update_idem,
        Function.update_eq_self]
    refine ⟨h, by rw [h], by simp [injectBreakpoint]⟩
  · intro w hw
    exact ⟨breakpointWord_mod w, breakpointWord_div w hw⟩

/-- Witness for C3 at a concrete memory, address and word. -/
theorem c3_breakpoint_roundtrip_witness :
    restoreBreakpoint (injectBreakpoint (fun _ => 0x123456) 64).1 64
        (injectBreakpoint (fun _ => 0x123456) 64).2 = (fun _ => 0x123456) ∧
    breakpointWord 0x123456 % 2 ^ (8 * BREAK_INST_BYTES_SIZE) = BREAK_INST ∧
    breakpointWord 0x123456 / 2 ^ (8 * BREAK_INST_BYTES_SIZE) =
      0x123456 / 2 ^ (8 * BREAK_INST_BYTES_SIZE) :=
  ⟨(c3_breakpoint_roundtrip.1 (fun _ => 0x123456) 64).1,
   (c3_breakpoint_roundtrip.2 0x123456 (by decide)).1,
   (c3_breakpoint_roundtrip.2 0x123456 (by decide)).2⟩

/-- Helper: when neither waitpid nor the instruction-pointer probe ever
observes the tracee within the window, the wait primitive times out with
a zero status and returns false. -/
theorem wait_none_false (o : WaitOracle) (fuel : Nat) :
    ∀ t, (∀ j, t ≤ j → j ≤ t + fuel → o.w1 j = none ∧ o.ip j = 0) →
    wait_traced_child o fuel t = (false, 0) := by
  induction fuel with
  | zero =>
    intro t h
    have h1 := h t le_rfl (by omega)
    simp [wait_traced_child, h1.1, h1.2]
  | succ f ih =>
    intro t h
    have h1 := h t le_rfl (by omega)
    have h2 := ih (t + 1) (fun j hj1 hj2 => h j (by omega) (by omega))
    simp [wait_traced_child, h1.1, h1.2]
    exact h2

/-- Helper: at the first tick where the instruction pointer becomes
readable while waitpid has still not reported (including the reconciling
second call), the wait primitive reports stopped with a zero status. -/
theorem wait_ip_path (o : WaitOracle) :
    ∀ k fuel t, k ≤ fuel →
    (∀ j, t ≤ j → j < t + k → o.w1 j = none ∧ o.ip j = 0) →
    o.w1 (t + k) = none → o.ip (t + k) ≠ 0 → o.w2 (t + k) = none →
    wait_traced_child o fuel t = (true, 0) := by
  intro k
  induction k with
  | zero =>
    intro fuel t _ _ hw1 hip hw2
    rw [Nat.add_zero] at hw1 hip hw2
    cases fuel with
    | zero => simp [wait_traced_child, hw1, hw2, hip]
    | succ f => simp [wait_traced_child, hw1, hw2, hip]
  | succ m ih =>
    intro fuel t hk hpre hw1 hip hw2
    cases fuel with
    | zero => omega
    | succ f =>
      have h1 := hpre t le_rfl (by omega)
      have heq : t + (m + 1) = (t + 1) + m := by omega
      rw [heq] at hw1 hip hw2
      have h2 := ih f (t + 1) (by omega)
        (fun j hj1 hj2 => hpre j (by omega) (by omega)) hw1 hip hw2
      simp [wait_traced_child, h1.1, h1.2]
      exact h2

/-- C4: the traced-wait primitive returns true iff the tracee is judged
stopped: when the tracee never reaches a stopped state in the window
(waitpid never reports it and its instruction pointer is never readable)
it returns false; and on the instruction-pointer-readable path, when the
reconciling non-blocking wait still does not report this child, the raw
status is left zero but the primitive still returns true. -/
theorem c4_wait_traced_child :
    (∀ (o : WaitOracle) (fuel : Nat),
      (∀ j, j ≤ fuel → o.w1 j = none ∧ o.ip j = 0) →
      wait_traced_child o fuel 0 = (false, 0)) ∧
    (∀ (o : WaitOracle) (fuel k : Nat), k ≤ fuel →
      (∀ j, j < k → o.w1 j = none ∧ o.ip j = 0) →
      o.w1 k = none → o.ip k ≠ 0 → o.w2 k = none →
      wait_traced_child o fuel 0 = (true, 0)) := by
  constructor
  · intro o fuel h
    exact wait_none_false o fuel 0 (fun j _ hj2 => h j (by omega))
  · intro o fuel k hk h hw1 hip hw2
    have := wait_ip_path o k fuel 0 hk (fun j _ hj2 => h j (by omega))
      (by simpa using hw1) (by simpa using hip) (by simpa using hw2)
    exact this

/-- Witness for C4 at concrete oracles: one tracee that is never seen
stopped, and one whose instruction pointer becomes readable at tick 1
with the reconciling wait still missing. -/
theorem c4_wait_traced_child_witness :
    wait_traced_child ⟨fun _ => none, fun _ => 0, fun _ => none⟩ 3 0 = (false, 0) ∧
    wait_traced_child ⟨fun _ => none, fun t => if t = 1 then 5 else 0,
      fun _ => none⟩ 3 0 = (true, 0) :=
  ⟨c4_wait_traced_child.1 ⟨fun _ => none, fun _ => 0, fun _ => none⟩ 3 (by decide),
   c4_wait_traced_child.2 ⟨fun _ => none, fun t => if t = 1 then 5 else 0,
     fun _ => none⟩ 3 1 (by decide) (by decide) (by decide) (by decide) (by decide)⟩

/-- Helper: when waitpid reports the child at the first observed tick
(every earlier tick showing nothing), the wait primitive returns the
reported raw status with the WIFSTOPPED judgement. -/
theorem wait_reports (o : WaitOracle) :
    ∀ k fuel t st, k ≤ fuel →
    (∀ j, t ≤ j → j < t + k → o.w1 j = none ∧ o.ip j = 0) →
    o.w1 (t + k) = some st →
    wait_traced_child o fuel t = (WIFSTOPPED st, st) := by
  intro k
  induction k with
  | zero =>
    intro fuel t st _ _ hrep
    rw [Nat.add_zero] at hrep
    cases fuel with
    | zero => simp [wait_traced_child, hrep]
    | succ f => simp [wait_traced_child, hrep]
  | succ m ih =>
    intro fuel t st hk hpre hrep
    cases fuel with
    | zero => omega
    | succ f =>
      have h1 := hpre t le_rfl (by omega)
      have heq : t + (m + 1) = (t + 1) + m := by omega
      rw [heq] at hrep
      have h2 := ih f (t + 1) st (by omega)
        (fun j hj1 hj2 => hpre j (by omega) (by omega)) hrep
      simp [wait_traced_child, h1.1, h1.2]
      exact h2

/-- C2: when the wait for the exec stop observes the child exiting (the
raw status reports an exit, not a stop, with the child never seen
stopped earlier in the window), StopChildAtMain treats this as a failure
and returns false. -/
theorem c2_exit_is_failure (env : StopEnv) (k st : Nat) (hk : k ≤ env.fuel2)
    (hpre : ∀ j, j < k → env.wait2.w1 j = none ∧ env.wait2.ip j = 0)
    (hrep : env.wait2.w1 k = some st) (hexit : WIFEXITED st = true) :
    (StopChildAtMain env).1 = false := by
  have hw : wait_traced_child env.wait2 env.fuel2 0 = (WIFSTOPPED st, st) := by
    have := wait_reports env.wait2 k env.fuel2 0 st hk
      (fun j _ hj2 => hpre j (by omega)) (by simpa using hrep)
    exact this
  have h0 : st % 128 = 0 := by simpa [WIFEXITED, WSTATUS] using hexit
  have hstop : WIFSTOPPED st = false := by simp [WIFSTOPPED, WSTATUS, h0]
  unfold StopChildAtMain
  rw [hw, hstop]
  simp [ite_self]

/-- Witness for C2: a concrete environment whose exec-stop wait sees the
child exit with raw status 256 (exit code 1). -/
theorem c2_exit_is_failure_witness : (StopChildAtMain envC2).1 = false :=
  c2_exit_is_failure envC2 0 256 (by decide) (by decide) (by decide) (by decide)

/-- C1 counterexample: a binary that declares a section-header table
whose single section does not cover the entry address, in an environment
where every stage cooperates. Resolution does not fail: the resolver
falls back to the flat-mapping file offset and StopChildAtMain returns
true, contradicting the claim that it returns false for every binary
whose table contains no covering section. -/
theorem c1_counterexample :
    sectionCovers ⟨0x1000, 0x100, 0x2000⟩ 0x5000 = false ∧
    envC1.ehdr = some ⟨0x5000, 64, 1⟩ ∧
    envC1.readSec 0 = some ⟨0x1000, 0x100, 0x2000⟩ ∧
    resolveEntryAddress 0x400000 ⟨0x5000, 64, 1⟩ envC1.readSec = some 0x405000 ∧
    (StopChildAtMain envC1).1 = true := by
  refine ⟨by decide, by decide, by decide, by decide, by decide⟩

/-- Helper: the section scan returns the first covering section's
translation when every earlier read succeeds without covering the
entry. -/
theorem scan_first_hit (readSec : Nat → Option Elf64_Shdr) (e : Nat) :
    ∀ k n s sec, k < n →
    (∀ j, j < k → secReadMisses readSec e (s + j) = true) →
    readSec (s + k) = some sec → sectionCovers sec e = true →
    scanSections readSec e n s = some (e - sec.sh_addr + sec.sh_offset) := by
  intro k
  induction k with
  | zero =>
    intro n s sec hk _ hread hcov
    rw [Nat.add_zero] at hread
    cases n with
    | zero => omega
    | succ m => simp [scanSections, hread, hcov]
  | succ m ih =>
    intro n s sec hk hpre hread hcov
    cases n with
    | zero => omega
    | succ n2 =>
      have h0 := hpre 0 (by omega)
      rw [Nat.add_zero] at h0
      unfold secReadMisses at h0
      cases hr : readSec s with
      | none => rw [hr] at h0; simp at h0
      | some sec0 =>
        rw [hr] at h0
        simp at h0
        have heq : s + (m + 1) = (s + 1) + m := by omega
        rw [heq] at hread
        have h2 := ih n2 (s + 1) sec (by omega)
          (fun j hj => by
            have := hpre (j + 1) (by omega)
            rwa [show s + (j + 1) = s + 1 + j by omega] at this)
          hread hcov
        simp [scanSections, hr, h0]
        exact h2

/-- Helper: when every section read succeeds and none covers the entry,
the scan completes and keeps the flat-mapping file offset. -/
theorem scan_all_miss (readSec : Nat → Option Elf64_Shdr) (e : Nat) :
    ∀ n s, (∀ j, j < n → secReadMisses readSec e (s + j) = true) →
    scanSections readSec e n s = some e := by
  intro n
  induction n with
  | zero => intro s _; rfl
  | succ m ih =>
    intro s h
    have h0 := h 0 (by omega)
    rw [Nat.add_zero] at h0
    unfold secReadMisses at h0
    cases hr : readSec s with
    | none => rw [hr] at h0; simp at h0
    | some sec0 =>
      rw [hr] at h0
      simp at h0
      have h2 := ih (s + 1) (fun j hj => by
        have := h (j + 1) (by omega)
        rwa [show s + (j + 1) = s + 1 + j by omega] at this)
      simp [scanSections, hr, h0]
      exact h2

/-- C1 amended: with a section-header table present, the resolver selects
the first section whose virtual-address range contains the entry address
and computes file offset = entry - sh_addr + sh_offset; when no section
covers the entry address (all section reads succeeding), resolution does
not fail: it keeps file offset = entry virtual address (the flat-mapping
fallback) and proceeds, so StopChildAtMain does not return false on that
account. -/
theorem c1_amended_resolution :
    (∀ (base entry shoff shnum : Nat) (readSec : Nat → Option Elf64_Shdr)
        (k : Nat) (sec : Elf64_Shdr), shoff ≠ 0 → k < shnum →
        (∀ j, j < k → secReadMisses readSec entry j = true) →
        readSec k = some sec → sectionCovers sec entry = true →
        resolveEntryAddress base ⟨entry, shoff, shnum⟩ readSec =
          some (base + (entry - sec.sh_addr + sec.sh_offset))) ∧
    (∀ (base entry shoff shnum : Nat) (readSec : Nat → Option Elf64_Shdr),
        shoff ≠ 0 →
        (∀ j, j < shnum → secReadMisses readSec entry j = true) →
        resolveEntryAddress base ⟨entry, shoff, shnum⟩ readSec =
          some (base + entry)) := by
  constructor
  · intro base entry shoff shnum readSec k sec hoff hk hpre hread hcov
    have hs := scan_first_hit readSec entry k shnum 0 sec hk
      (fun j hj => by simpa using hpre j hj) (by simpa using hread) hcov
    simp [resolveEntryAddress, resolveEntryFileOffset, hoff, hs, sectionOffset]
  · intro base entry shoff shnum readSec hoff hall
    have hs := scan_all_miss readSec entry shnum 0
      (fun j hj => by simpa using hall j hj)
    simp [resolveEntryAddress, resolveEntryFileOffset, hoff, hs, sectionOffset]

/-- Witness for the amended C1 at concrete section tables: one whose
second section covers the entry, and one covering nothing. -/
theorem c1_amended_resolution_witness :
    resolveEntryAddress 0x400000 ⟨0x5000, 64, 2⟩
        (fun j => if j = 0 then some ⟨0x1000, 0x100, 0x9000⟩
          else some ⟨0x4000, 0x2000, 0x3000⟩) = some 0x404000 ∧
    resolveEntryAddress 0x400000 ⟨0x5000, 64, 1⟩
        (fun _ => some ⟨0x1000, 0x100, 0x2000⟩) = some 0x405000 :=
  ⟨c1_amended_resolution.1 0x400000 0x5000 64 2
      (fun j => if j = 0 then some ⟨0x1000, 0x100, 0x9000⟩
        else some ⟨0x4000, 0x2000, 0x3000⟩) 1 ⟨0x4000, 0x2000, 0x3000⟩
      (by decide) (by decide) (by decide) (by decide) (by decide),
   c1_amended_resolution.2 0x400000 0x5000 64 1
      (fun _ => some ⟨0x1000, 0x100, 0x2000⟩) (by decide) (by decide)⟩

/-- Helper: once the warning latch is set, no call to the gate emits the
warning again. -/
theorem scope_no_reemit (s r : Bool) (c : Option Int) :
    (ptrace_scope_ok s r c true).warnEmitted = false := by
  unfold ptrace_scope_ok
  cases s with
  | false => simp
  | true =>
    cases c with
    | none => simp
    | some v =>
      by_cases hv : v > 1
      · simp [hv]
      · simp [hv]

/-- Helper: an emitted warning implies the call ran as the replay app
and left the latch set. -/
theorem scope_emit_facts (s r : Bool) (c : Option Int) (w : Bool)
    (h : (ptrace_scope_ok s r c w).warnEmitted = true) :
    r = true ∧ (ptrace_scope_ok s r c w).warned = true := by
  cases s with
  | false => simp [ptrace_scope_ok] at h
  | true =>
    cases c with
    | none => simp [ptrace_scope_ok] at h
    | some v =>
      by_cases hv : v > 1
      · cases r with
        | false => simp [ptrace_scope_ok, hv] at h
        | true =>
          cases w with
          | false => exact ⟨rfl, by simp [ptrace_scope_ok, hv]⟩
          | true => simp [ptrace_scope_ok, hv] at h
      · simp [ptrace_scope_ok, hv] at h

/-- C8: the tracer-scope gate returns false when the child-tracing
setting is disabled; returns false when the restriction level read from
the pseudo-file exceeds 1, emitting its warning only when running as the
replay app and at most once per process lifetime (the latch blocks any
further emission); and returns true in every other case, including the
pseudo-file being absent or empty. -/
theorem c8_scope_gate :
    (∀ (isReplay : Bool) (contents : Option Int) (warned : Bool),
      (ptrace_scope_ok false isReplay contents warned).ok = false ∧
      (ptrace_scope_ok false isReplay contents warned).warnEmitted = false) ∧
    (∀ (isReplay : Bool) (v : Int) (warned : Bool), v > 1 →
      (ptrace_scope_ok true isReplay (some v) warned).ok = false ∧
      (ptrace_scope_ok true isReplay (some v) warned).warnEmitted =
        (isReplay && !warned)) ∧
    (∀ (s r : Bool) (c : Option Int) (w s2 r2 : Bool) (c2 : Option Int),
      (ptrace_scope_ok s r c w).warnEmitted = true →
      r = true ∧
      (ptrace_scope_ok s2 r2 c2 (ptrace_scope_ok s r c w).warned).warnEmitted
        = false) ∧
    (∀ (isReplay warned : Bool),
      (ptrace_scope_ok true isReplay none warned).ok = true ∧
      (ptrace_scope_ok true isReplay none warned).warnEmitted = false) ∧
    (∀ (isReplay warned : Bool) (v : Int), v ≤ 1 →
      (ptrace_scope_ok true isReplay (some v) warned).ok = true ∧
      (ptrace_scope_ok true isReplay (some v) warned).warnEmitted = false) := by
  refine ⟨?_, ?_, ?_, ?_, ?_⟩
  · intro isReplay contents warned
    simp [ptrace_scope_ok]
  · intro isReplay v warned hv
    cases isReplay <;> cases warned <;> simp [ptrace_scope_ok, hv]
  · intro s r c w s2 r2 c2 hemit
    have hf := scope_emit_facts s r c w hemit
    refine ⟨hf.1, ?_⟩
    rw [hf.2]
    exact scope_no_reemit s2 r2 c2
  · intro isReplay warned
    simp [ptrace_scope_ok]
  · intro isReplay warned v hv
    have hv2 : ¬(v > 1) := by omega
    simp [ptrace_scope_ok, hv2]

/-- Witness for C8 at concrete gate inputs covering each clause. -/
theorem c8_scope_gate_witness :
    ((ptrace_scope_ok false true (some 0) false).ok = false ∧
      (ptrace_scope_ok false true (some 0) false).warnEmitted = false) ∧
    ((ptrace_scope_ok true true (some 2) false).ok = false ∧
      (ptrace_scope_ok true true (some 2) false).warnEmitted = (true && !false)) ∧
    (true = true ∧
      (ptrace_scope_ok true true (some 2)
        (ptrace_scope_ok true true (some 2) false).warned).warnEmitted = false) ∧
    ((ptrace_scope_ok true false none true).ok = true ∧
      (ptrace_scope_ok true false none true).warnEmitted = false) ∧
    ((ptrace_scope_ok true true (some 1) false).ok = true ∧
      (ptrace_scope_ok true true (some 1) false).warnEmitted = false) :=
  ⟨c8_scope_gate.1 true (some 0) false,
   c8_scope_gate.2.1 true 2 false (by decide),
   c8_scope_gate.2.2.1 true true (some 2) false true true (some 2) (by decide),
   c8_scope_gate.2.2.2.1 false true,
   c8_scope_gate.2.2.2.2 true false 1 (by decide)⟩

/-- Helper: the tracer watch reports a connection when the status source
first shows a nonzero tracer identifier within the window. -/
theorem watch_found (tracer : Nat → Option Nat) :
    ∀ k fuel t v, k ≤ fuel →
    (∀ j, t ≤ j → j < t + k → tracer j = some 0) →
    tracer (t + k) = some v → v ≠ 0 →
    watchTracer tracer fuel t = true := by
  intro k
  induction k with
  | zero =>
    intro fuel t v _ _ hv hnz
    rw [Nat.add_zero] at hv
    cases fuel with
    | zero => simp [watchTracer, hv, hnz]
    | succ f => simp [watchTracer, hv, hnz]
  | succ m ih =>
    intro fuel t v hk hpre hv hnz
    cases fuel with
    | zero => omega
    | succ f =>
      have h0 := hpre t le_rfl (by omega)
      have heq : t + (m + 1) = (t + 1) + m := by omega
      rw [heq] at hv
      have h2 := ih f (t + 1) v (by omega)
        (fun j hj1 hj2 => hpre j (by omega) (by omega)) hv hnz
      simp [watchTracer, h0]
      exact h2

/-- Helper: the tracer watch times out unconnected when the status source
shows a zero tracer identifier at every tick of the window. -/
theorem watch_timeout (tracer : Nat → Option Nat) :
    ∀ fuel t, (∀ j, t ≤ j → j ≤ t + fuel → tracer j = some 0) →
    watchTracer tracer fuel t = false := by
  intro fuel
  induction fuel with
  | zero =>
    intro t h
    have h1 := h t le_rfl (by omega)
    simp [watchTracer, h1]
  | succ f ih =>
    intro t h
    have h1 := h t le_rfl (by omega)
    have h2 := ih (t + 1) (fun j hj1 hj2 => h j (by omega) (by omega))
    simp [watchTracer, h1]
    exact h2

/-- C6: with a positive delay and the tracee stopped (instruction pointer
readable), ResumeProcess leaves the tracee stopped and sends no continue
signal whenever the status source reports a nonzero tracer identifier
before the delay elapses; and it sends the continue signal exactly once
when the whole delay window passes with no tracer attaching. -/
theorem c6_resume_with_delay :
    (∀ (pid : Int) (delay ip : Nat) (tracer : Nat → Option Nat)
        (fuel k v : Nat), pid ≠ 0 → delay > 0 → ip ≠ 0 → k ≤ fuel →
      (∀ j, j < k → tracer j = some 0) → tracer k = some v → v ≠ 0 →
      ResumeProcess pid delay ip tracer fuel = ⟨0, true⟩) ∧
    (∀ (pid : Int) (delay ip : Nat) (tracer : Nat → Option Nat) (fuel : Nat),
      pid ≠ 0 → delay > 0 → ip ≠ 0 →
      (∀ j, j ≤ fuel → tracer j = some 0) →
      ResumeProcess pid delay ip tracer fuel = ⟨1, true⟩) := by
  constructor
  · intro pid delay ip tracer fuel k v hpid hdelay hip hk hpre hv hnz
    have hw : watchTracer tracer fuel 0 = true :=
      watch_found tracer k fuel 0 v hk (fun j _ hj2 => hpre j (by omega))
        (by simpa using hv) hnz
    simp [ResumeProcess, hpid, hdelay, hip, hw]
  · intro pid delay ip tracer fuel hpid hdelay hip hall
    have hw : watchTracer tracer fuel 0 = false :=
      watch_timeout tracer fuel 0 (fun j _ hj2 => hall j (by omega))
    simp [ResumeProcess, hpid, hdelay, hip, hw]

/-- Witness for C6: a tracer attaching at tick 2 within a 5-tick window
prevents the continue signal; a window with no attach sends it once. -/
theorem c6_resume_with_delay_witness :
    ResumeProcess 100 1 0x400000 (fun t => if t = 2 then some 555 else some 0) 5
      = ⟨0, true⟩ ∧
    ResumeProcess 100 1 0x400000 (fun _ => some 0) 5 = ⟨1, true⟩ :=
  ⟨c6_resume_with_delay.1 100 1 0x400000
      (fun t => if t = 2 then some 555 else some 0) 5 2 555
      (by decide) (by decide) (by decide) (by decide) (by decide) (by decide)
      (by decide),
   c6_resume_with_delay.2 100 1 0x400000 (fun _ => some 0) 5
      (by decide) (by decide) (by decide) (by decide)⟩

/-- Helper: prepending the current wait to the doubled-wait tail gives
one longer run of doubling delays. -/
theorem range_pow_shift (w m : Nat) :
    w :: (List.range m).map (fun j => w * 2 * 2 ^ j) =
      (List.range (m + 1)).map (fun j => w * 2 ^ j) := by
  rw [List.range_succ_eq_map, List.map_cons, List.map_map]
  congr 1
  · simp
  · congr 1
    funext j
    simp [Function.comp, pow_succ]
    ring

/-- Helper: the retry loop runs at most its fuel bound of attempts. -/
theorem identRetry_attempts_le (outputs : Nat → List Char) :
    ∀ n i w, (identRetry outputs n i w).attempts ≤ n := by
  intro n
  induction n with
  | zero => intro i w; simp [identRetry]
  | succ m ih =>
    intro i w
    by_cases he : (outputs i).isEmpty
    · simp only [identRetry, he, if_pos]
      have := ih (i + 1) (w * 2)
      omega
    · simp [identRetry, he]

/-- Helper: the sleep sequence of the retry loop is always the doubling
run starting at the initial wait. -/
theorem identRetry_delays (outputs : Nat → List Char) :
    ∀ n i w, (identRetry outputs n i w).delays =
      (List.range (identRetry outputs n i w).delays.length).map
        (fun j => w * 2 ^ j) := by
  intro n
  induction n with
  | zero => intro i w; simp [identRetry]
  | succ m ih =>
    intro i w
    by_cases he : (outputs i).isEmpty
    · have hrec := ih (i + 1) (w * 2)
      simp only [identRetry, he, if_pos, List.length_cons]
      rw [← range_pow_shift, ← hrec]
    · simp [identRetry, he]

/-- Helper: the retry loop stops at the first attempt whose output is
non-empty, having slept once per failed attempt with doubling waits. -/
theorem identRetry_first_hit (outputs : Nat → List Char) :
    ∀ k n i w, k < n → (∀ j, j < k → outputs (i + j) = []) →
    outputs (i + k) ≠ [] →
    identRetry outputs n i w =
      ⟨outputs (i + k), (List.range k).map (fun j => w * 2 ^ j), k + 1⟩ := by
  intro k
  induction k with
  | zero =>
    intro n i w hk _ hne
    rw [Nat.add_zero] at hne
    cases n with
    | zero => omega
    | succ m =>
      have hie : (outputs i).isEmpty = false := by
        simp [List.isEmpty_iff, hne]
      simp [identRetry, hie]
  | succ m2 ih =>
    intro n i w hk hpre hne
    cases n with
    | zero => omega
    | succ n2 =>
      have h0 : outputs i = [] := by simpa using hpre 0 (by omega)
      have hie : (outputs i).isEmpty = true := by simp [h0]
      have heq : i + (m2 + 1) = (i + 1) + m2 := by omega
      rw [heq] at hne
      have h2 := ih n2 (i + 1) (w * 2) (by omega)
        (fun j hj => by
          have := hpre (j + 1) (by omega)
          rwa [show i + (j + 1) = i + 1 + j by omega] at this) hne
      simp [identRetry, hie, h2, heq, ← range_pow_shift]

/-- Helper: when every attempt in the window produces empty output the
retry loop runs all its attempts, sleeps after each one, and ends with
the empty result. -/
theorem identRetry_all_empty (outputs : Nat → List Char) :
    ∀ n i w, (∀ j, j < n → outputs (i + j) = []) →
    identRetry outputs n i w =
      ⟨[], (List.range n).map (fun j => w * 2 ^ j), n⟩ := by
  intro n
  induction n with
  | zero => intro i w _; simp [identRetry]
  | succ m ih =>
    intro i w h
    have h0 : outputs i = [] := by simpa using h 0 (by omega)
    have hie : (outputs i).isEmpty = true := by simp [h0]
    have h2 := ih (i + 1) (w * 2) (fun j hj => by
      have := h (j + 1) (by omega)
      rwa [show i + (j + 1) = i + 1 + j by omega] at this)
    simp [identRetry, hie, h2, ← range_pow_shift]

/-- C9: ident-port discovery issues at most 10 attempts of the external
command; its inter-attempt delays are the strictly increasing doubling
run 1, 2, 4, ... milliseconds; it stops at the first attempt whose
output is non-empty; and when all attempts produce empty output
GetIdentPort returns 0. -/
theorem c9_retry_backoff :
    (∀ outputs : Nat → List Char, (identRetry outputs 10 0 1).attempts ≤ 10) ∧
    (∀ outputs : Nat → List Char,
      (identRetry outputs 10 0 1).delays =
        (List.range (identRetry outputs 10 0 1).delays.length).map
          (fun j => 2 ^ j)) ∧
    (∀ (outputs : Nat → List Char) (k : Nat), k < 10 →
      (∀ j, j < k → outputs j = []) → outputs k ≠ [] →
      identRetry outputs 10 0 1 =
        ⟨outputs k, (List.range k).map (fun j => 2 ^ j), k + 1⟩) ∧
    (∀ (outputs : Nat → List Char) (childPid portFirst portLast : Int),
      (∀ j, j < 10 → outputs j = []) →
      GetIdentPort childPid portFirst portLast outputs = 0) := by
  refine ⟨?_, ?_, ?_, ?_⟩
  · intro outputs
    exact identRetry_attempts_le outputs 10 0 1
  · intro outputs
    have := identRetry_delays outputs 10 0 1
    simpa using this
  · intro outputs k hk hpre hne
    have := identRetry_first_hit outputs k 10 0 1 hk
      (fun j hj => by simpa using hpre j hj) (by simpa using hne)
    simpa using this
  · intro outputs childPid portFirst portLast hall
    have := identRetry_all_empty outputs 10 0 1
      (fun j hj => by simpa using hall j hj)
    simp [GetIdentPort, this]

/-- Witness for C9: a command succeeding on its fourth attempt stops the
loop there after three doubling sleeps; a command that never produces
output makes GetIdentPort return 0. -/
theorem c9_retry_backoff_witness :
    identRetry (fun t => if t < 3 then [] else ['x']) 10 0 1 =
      ⟨['x'], (List.range 3).map (fun j => 2 ^ j), 4⟩ ∧
    GetIdentPort 1234 48000 48100 (fun _ => []) = 0 :=
  ⟨c9_retry_backoff.2.2.1 (fun t => if t < 3 then [] else ['x']) 3 (by decide)
      (by decide) (by decide),
   c9_retry_backoff.2.2.2 (fun _ => []) 1234 48000 48100 (by decide)⟩

/-- Helper: the port-token scan only ever returns zero or a port inside
the configured range, because the only return of a parsed port is
guarded by the range check. -/
theorem scanPortTokens_range (s : List Char) (pf pl : Int) :
    ∀ fuel i, scanPortTokens s pf pl fuel i = 0 ∨
      (pf ≤ scanPortTokens s pf pl fuel i ∧
        scanPortTokens s pf pl fuel i ≤ pl) := by
  intro fuel
  induction fuel with
  | zero => intro i; left; rfl
  | succ f ih =>
    intro i
    by_cases hi : i < s.length
    · cases hm : findMarker s i with
      | none => left; simp [scanPortTokens, hi, hm]
      | some n =>
        by_cases hr : pf ≤ atoiFrom s (n + 3) ∧ atoiFrom s (n + 3) ≤ pl
        · have hv : scanPortTokens s pf pl (f + 1) i = atoiFrom s (n + 3) := by
            simp [scanPortTokens, hi, hm, hr]
          rw [hv]
          right
          exact hr
        · have hv : scanPortTokens s pf pl (f + 1) i =
              scanPortTokens s pf pl f (tokenEnd s (n + 3)) := by
            simp [scanPortTokens, hi, hm, hr]
          rw [hv]
          exact ih (tokenEnd s (n + 3))
    · left; simp [scanPortTokens, hi]

/-- Helper: the whole parse of one lsof output returns zero or an
in-range port. -/
theorem parseIdentPort_range (s : List Char) (childPid pf pl : Int) :
    parseIdentPort s childPid pf pl = 0 ∨
      (pf ≤ parseIdentPort s childPid pf pl ∧
        parseIdentPort s childPid pf pl ≤ pl) := by
  unfold parseIdentPort
  by_cases h1 : getC s 0 = 'p'
  · by_cases h2 : atoiFrom s 1 = childPid
    · simp only [h1, h2, if_pos, if_true]
      exact scanPortTokens_range s pf pl (s.length + 1) (tokenEnd s 1)
    · simp [h1, h2]
  · simp [h1]

/-- C10: for every tracee handle and every external-command output,
GetIdentPort returns either 0 or a port lying within the configured
valid port range; it never returns a non-zero value outside that
range. -/
theorem c10_port_in_range (childPid portFirst portLast : Int)
    (outputs : Nat → List Char) :
    GetIdentPort childPid portFirst portLast outputs = 0 ∨
      (portFirst ≤ GetIdentPort childPid portFirst portLast outputs ∧
        GetIdentPort childPid portFirst portLast outputs ≤ portLast) := by
  unfold GetIdentPort
  by_cases he : (identRetry outputs 10 0 1).result.isEmpty
  · left
    simp [he]
  · simp only [he, Bool.false_eq_true, if_false]
    exact parseIdentPort_range (identRetry outputs 10 0 1).result childPid
      portFirst portLast

/-- C5: parsing the sample output p1234, COMMAND, n*:48000 for tracee
PID 1234 with valid range 48000..48100 yields 48000; every output whose
leading p token carries a PID different from the tracee PID makes
GetIdentPort return 0 without retrying; and every n*: token whose port
lies outside the configured range is skipped, scanning continuing at the
next position past that token. -/
theorem c5_ident_parse :
    GetIdentPort 1234 48000 48100
        (fun _ => "p1234\nCOMMAND\nn*:48000\n".toList) = 48000 ∧
    (∀ (s : List Char) (childPid portFirst portLast : Int),
      s ≠ [] → getC s 0 = 'p' → atoiFrom s 1 ≠ childPid →
      GetIdentPort childPid portFirst portLast (fun _ => s) = 0) ∧
    (∀ (s : List Char) (portFirst portLast : Int) (fuel i netStart : Nat),
      i < s.length → findMarker s i = some netStart →
      ¬(portFirst ≤ atoiFrom s (netStart + 3) ∧
        atoiFrom s (netStart + 3) ≤ portLast) →
      scanPortTokens s portFirst portLast (fuel + 1) i =
        scanPortTokens s portFirst portLast fuel (tokenEnd s (netStart + 3))) := by
  refine ⟨by decide, ?_, ?_⟩
  · intro s childPid portFirst portLast hs hp hne
    have hr : identRetry (fun _ => s) 10 0 1 = ⟨s, [], 1⟩ := by
      have hie : s.isEmpty = false := by simp [List.isEmpty_iff, hs]
      simp [identRetry, hie]
    unfold GetIdentPort
    rw [hr]
    have hie : s.isEmpty = false := by simp [List.isEmpty_iff, hs]
    simp [hie, parseIdentPort, hp, hne]
  · intro s portFirst portLast fuel i netStart hi hm hr
    simp [scanPortTokens, hi, hm, hr]

/-- Witness for C5: a PID-mismatched output parses to 0, and a concrete
scan skips an out-of-range port token and continues past it. -/
theorem c5_ident_parse_witness :
    GetIdentPort 1234 48000 48100 (fun _ => "p9999\nn*:48000\n".toList) = 0 ∧
    scanPortTokens "n*:10n*:48000".toList 48000 48100 5 0 =
      scanPortTokens "n*:10n*:48000".toList 48000 48100 4
        (tokenEnd "n*:10n*:48000".toList 3) :=
  ⟨c5_ident_parse.2.1 "p9999\nn*:48000\n".toList 1234 48000 48100 (by decide)
      (by decide) (by decide),
   c5_ident_parse.2.2 "n*:10n*:48000".toList 48000 48100 4 0 0 (by decide)
      (by decide) (by decide)⟩
